import Mathlib

/-! Retry-on-conflict update of a ReplicaSet (`pkg/util/replicaset/replicaset.go`).

A shallow embedding of `UpdateRSWithRetries`.  The function talks to an
external store (`ReplicaSetInterface`) and to two caller-supplied closures;
every such call is recorded in a call log, so that statements about which
calls happen, in which order and with which arguments become statements about
a list.
-/

namespace replicaset

/-! ## Resources -/

/-- Modelled from the spec: the type `extensions.ReplicaSet` is declared outside the
source tree.  The record keeps the identity fields the function reads (`Kind`,
`Namespace`, `Name`) and the version token and replica count of the spec's
scenario. -/
structure ReplicaSet where
  Kind : String
  Namespace : String
  Name : String
  ResourceVersion : Nat
  Replicas : Int
  deriving DecidableEq, Repr

/-! ## Errors -/

/-- Reason carried by an API status error (`unversioned.StatusReason`); only the
reasons the development distinguishes are listed. -/
inductive StatusReason
  | NotFound
  | Conflict
  | Forbidden
  | Unknown
  deriving DecidableEq, Repr

/-- A Go `error` value.  `status` is an API status error, `errWaitTimeout` is the
one sentinel value `wait.ErrWaitTimeout` (compared by identity in the source),
`errorf format arg` is the error built by `fmt.Errorf(format, arg)` for a
resource `arg`, kept as the format and the resource it prints (the text that
`fmt` renders for the resource is not modelled), and `plain` is any other
error. -/
inductive GoError
  | status (reason : StatusReason) (message : String)
  | errWaitTimeout
  | errorf (format : String) (arg : ReplicaSet)
  | plain (message : String)
  deriving DecidableEq, Repr

/-- The sentinel `wait.ErrWaitTimeout`. -/
def ErrWaitTimeout : GoError := GoError.errWaitTimeout

/-- The check `errors.IsNotFound(err)`: true exactly for a status error with reason
NotFound; false for `nil`. -/
def IsNotFound : Option GoError → Bool
  | some (GoError.status StatusReason.NotFound _) => true
  | _ => false

/-- The check `errors.IsConflict(err)`: true exactly for a status error with reason
Conflict; false for `nil`. -/
def IsConflict : Option GoError → Bool
  | some (GoError.status StatusReason.Conflict _) => true
  | _ => false

/-- The value of `fmt.Errorf("timed out trying to update RS: %+v", oldRs)` (line 65). -/
def timedOutError (oldRs : ReplicaSet) : GoError :=
  GoError.errorf "timed out trying to update RS: %+v" oldRs

/-! ## Calls and the store -/

/-- One call made by `UpdateRSWithRetries`, with its argument and its result. -/
inductive Call
  | Get (name : String) (rs : ReplicaSet) (err : Option GoError)
  | preconditionHold (rs : ReplicaSet) (holds : Bool)
  | applyUpdate (rs : ReplicaSet) (out : ReplicaSet)
  | Update (rs : ReplicaSet) (out : ReplicaSet) (err : Option GoError)
  deriving DecidableEq, Repr

/-- The store `unversionedextensions.ReplicaSetInterface`, restricted to the two
methods used.  The store is stateful and shared with other writers: the answer
to a call may depend on everything that happened before it, which is passed as
the log of the calls made so far.  Each method returns a Go pair
`(*ReplicaSet, error)`; the resource component is present also when the error is
not `nil`. -/
structure ReplicaSetInterface where
  Get : List Call → String → ReplicaSet × Option GoError
  Update : List Call → ReplicaSet → ReplicaSet × Option GoError

/-- The function type `preconditionFunc`. -/
abbrev preconditionFunc := ReplicaSet → Bool

/-- The function type `updateRSFunc`: the in-place mutation of the pointee, as the
map from the resource before to the resource after. -/
abbrev updateRSFunc := ReplicaSet → ReplicaSet

/-- The variables captured by the closure passed to `wait.Poll` (`rs`, `err`),
together with the log of the calls made so far. -/
structure Frame where
  rs : ReplicaSet
  err : Option GoError
  calls : List Call
  deriving DecidableEq, Repr

/-! ## The poll loop -/

/-- Go `time.Duration` constants, in nanoseconds. -/
def Millisecond : Nat := 1000000

/-- One minute, in nanoseconds. -/
def Minute : Nat := 60 * 1000 * Millisecond

/-- Modelled from the spec: `wait.Poll` lives in package `pkg/util/wait`, outside
the source tree.  The loop runs the condition until it reports an error
(returned as is), reports `true` (returns `nil`), or the attempt budget is
used up (returns `wait.ErrWaitTimeout`). -/
def pollLoop {S : Type} (condition : S → (Bool × Option GoError) × S) :
    Nat → S → Option GoError × S
  | 0, s => (some ErrWaitTimeout, s)
  | n + 1, s =>
    match condition s with
    | ((_, some e), s1) => (some e, s1)
    | ((true, none), s1) => (none, s1)
    | ((false, none), s1) => pollLoop condition n s1

/-- Modelled from the spec: the number of passes a poll with the given interval and
timeout makes when no pass ends it.  The loop starts in the state that fetches,
loops back after each poll interval, and gives up once the elapsed time exceeds
the timeout: one first pass, and one further pass for every interval that fits
in the timeout. -/
def pollBudget (interval timeout : Nat) : Nat := timeout / interval + 1

/-- Modelled from the spec: `wait.Poll(interval, timeout, condition)`. -/
def Poll {S : Type} (interval timeout : Nat)
    (condition : S → (Bool × Option GoError) × S) (s : S) : Option GoError × S :=
  pollLoop condition (pollBudget interval timeout) s

/-! ## UpdateRSWithRetries -/

/-- The closure passed to `wait.Poll` (lines 41-59): fetch, check the precondition,
mutate, write back. -/
def condition (rsClient : ReplicaSetInterface) (oldRs : ReplicaSet)
    (preconditionHold : preconditionFunc) (applyUpdate : updateRSFunc)
    (f : Frame) : (Bool × Option GoError) × Frame :=
  -- rs, err = rsClient.Get(oldRs.Name)
  let got := rsClient.Get f.calls oldRs.Name
  let calls1 := f.calls ++ [Call.Get oldRs.Name got.1 got.2]
  match got.2 with
  | some e => ((false, some e), { rs := got.1, err := some e, calls := calls1 })
  | none =>
    let calls2 := calls1 ++ [Call.preconditionHold got.1 (preconditionHold got.1)]
    if !preconditionHold got.1 then
      ((true, none), { rs := got.1, err := none, calls := calls2 })
    else
      -- applyUpdate(rs)
      let mutated := applyUpdate got.1
      let calls3 := calls2 ++ [Call.applyUpdate got.1 mutated]
      -- rs, err = rsClient.Update(rs)
      let wrote := rsClient.Update calls3 mutated
      let calls4 := calls3 ++ [Call.Update mutated wrote.1 wrote.2]
      match wrote.2 with
      | none => ((true, none), { rs := wrote.1, err := none, calls := calls4 })
      | some e => ((false, none), { rs := wrote.1, err := some e, calls := calls4 })

/-- What a call of `UpdateRSWithRetries` produces: the three returned values and the
log of the calls it made. -/
structure Outcome where
  rs : ReplicaSet
  rsUpdated : Bool
  err : Option GoError
  calls : List Call
  deriving DecidableEq, Repr

/-- The attempt budget of the poll in `UpdateRSWithRetries`. -/
def attempts : Nat := pollBudget (10 * Millisecond) (1 * Minute)

/-- The function `UpdateRSWithRetries` (lines 37-75). -/
def UpdateRSWithRetries (rsClient : ReplicaSetInterface) (rs : ReplicaSet)
    (preconditionHold : preconditionFunc) (applyUpdate : updateRSFunc) : Outcome :=
  let oldRs := rs
  let polled := Poll (10 * Millisecond) (1 * Minute)
    (condition rsClient oldRs preconditionHold applyUpdate)
    { rs := rs, err := none, calls := [] }
  -- err = wait.Poll(...); err == nil
  let err := polled.1
  let rsUpdated := err == none
  let err := if err = some ErrWaitTimeout then some (timedOutError oldRs) else err
  let err := if IsNotFound err then none else err
  { rs := polled.2.rs, rsUpdated := rsUpdated, err := err, calls := polled.2.calls }

/-! ## Reading the call log -/

/-- Number of `Get` calls in a log. -/
def getCount (l : List Call) : Nat :=
  (l.filter fun c => match c with | Call.Get _ _ _ => true | _ => false).length

/-- Number of `Update` calls in a log. -/
def updateCount (l : List Call) : Nat :=
  (l.filter fun c => match c with | Call.Update _ _ _ => true | _ => false).length

/-- The calls of one pass through the closure of `UpdateRSWithRetries`: a failed
fetch; or a successful fetch of `r` on which the precondition is false; or a
successful fetch of `r` on which the precondition is true, followed by one
mutation of `r` and one write of the mutated `r`. -/
inductive Iteration (name : String) (pre : preconditionFunc) (ap : updateRSFunc) :
    List Call → Prop
  | fetchFailed (r : ReplicaSet) (e : GoError) :
      Iteration name pre ap [Call.Get name r (some e)]
  | skipped (r : ReplicaSet) (h : pre r = false) :
      Iteration name pre ap [Call.Get name r none, Call.preconditionHold r false]
  | written (r w : ReplicaSet) (e : Option GoError) (h : pre r = true) :
      Iteration name pre ap
        [Call.Get name r none, Call.preconditionHold r true, Call.applyUpdate r (ap r),
          Call.Update (ap r) w e]

/-- Calls of an iteration whose fetch succeeded and whose precondition failed. -/
def skipBlock (name : String) (r : ReplicaSet) : List Call :=
  [Call.Get name r none, Call.preconditionHold r false]

/-- Calls of an iteration that reached the write: fetch, precondition, mutation,
write with result `w` and error `e`. -/
def writeBlock (name : String) (ap : updateRSFunc) (r w : ReplicaSet)
    (e : Option GoError) : List Call :=
  [Call.Get name r none, Call.preconditionHold r true, Call.applyUpdate r (ap r),
    Call.Update (ap r) w e]

/-- The log seen by the store at the `Update` call of an iteration. -/
def beforeWrite (name : String) (ap : updateRSFunc) (r : ReplicaSet) : List Call :=
  [Call.Get name r none, Call.preconditionHold r true, Call.applyUpdate r (ap r)]

/-! ## Example stores -/

/-- The resource of the spec's scenario with the given version and replica count. -/
def rs1 (version : Nat) (replicas : Int) : ReplicaSet :=
  { Kind := "ReplicaSet", Namespace := "default", Name := "rs-1",
    ResourceVersion := version, Replicas := replicas }

/-- Store of the spec's scenario: the resource starts at version 1 with 3 replicas;
the first write conflicts because a concurrent writer moved it to version 2 with
4 replicas; the second write succeeds and yields version 3. -/
def scenarioStore : ReplicaSetInterface where
  Get := fun log _ => if updateCount log = 0 then (rs1 1 3, none) else (rs1 2 4, none)
  Update := fun log r =>
    if updateCount log = 0 then
      (rs1 0 0, some (GoError.status StatusReason.Conflict "object has been modified"))
    else ({ r with ResourceVersion := r.ResourceVersion + 1 }, none)

/-- Precondition of the spec's scenario: fewer than 5 replicas. -/
def scenarioPrecondition : preconditionFunc := fun r => decide (r.Replicas < 5)

/-- Mutation of the spec's scenario: one more replica. -/
def scenarioUpdate : updateRSFunc := fun r => { r with Replicas := r.Replicas + 1 }

/-- A precondition that never holds. -/
def neverHolds : preconditionFunc := fun _ => false

/-- The zero value `&extensions.ReplicaSet{}` a client hands back next to an error. -/
def blankRS : ReplicaSet :=
  { Kind := "", Namespace := "", Name := "", ResourceVersion := 0, Replicas := 0 }

/-- A NotFound status error. -/
def notFoundErr : GoError := GoError.status StatusReason.NotFound "replicasets rs-1 not found"

/-- A Conflict status error. -/
def conflictErr : GoError := GoError.status StatusReason.Conflict "object has been modified"

/-- A permission-denied status error. -/
def forbiddenErr : GoError := GoError.status StatusReason.Forbidden "forbidden"

/-- Store in which the resource does not exist: every fetch fails with NotFound. -/
def absentStore : ReplicaSetInterface where
  Get := fun _ _ => (blankRS, some notFoundErr)
  Update := fun _ _ => (blankRS, some notFoundErr)

/-- Store in which the resource is deleted while the update is in flight: the first
fetch succeeds, the write conflicts, and the next fetch fails with NotFound. -/
def vanishingStore : ReplicaSetInterface where
  Get := fun log _ => if updateCount log = 0 then (rs1 1 3, none) else (blankRS, some notFoundErr)
  Update := fun _ _ => (blankRS, some conflictErr)

/-- Store whose fetch is refused: every fetch fails with a permission error. -/
def forbiddenGetStore : ReplicaSetInterface where
  Get := fun _ _ => (blankRS, some forbiddenErr)
  Update := fun _ r => (r, none)

/-- Store whose fetch fails with the very error value `wait.ErrWaitTimeout`. -/
def sentinelStore : ReplicaSetInterface where
  Get := fun _ _ => (blankRS, some ErrWaitTimeout)
  Update := fun _ r => (r, none)

/-- Store whose first write is refused with a permission error and whose later
writes succeed. -/
def forbiddenOnceStore : ReplicaSetInterface where
  Get := fun _ _ => (rs1 1 3, none)
  Update := fun log r =>
    if updateCount log = 0 then (blankRS, some forbiddenErr)
    else ({ r with ResourceVersion := r.ResourceVersion + 1 }, none)

/-- Store under permanent contention: every fetch succeeds, every write conflicts. -/
def contendedStore : ReplicaSetInterface where
  Get := fun _ _ => (rs1 1 3, none)
  Update := fun _ _ => (blankRS, some conflictErr)

/-- Store whose resource is fetched once, whose write conflicts, and whose next fetch
fails with the very error value `wait.ErrWaitTimeout`. -/
def sentinelLaterStore : ReplicaSetInterface where
  Get := fun log _ =>
    if updateCount log = 0 then (rs1 1 3, none) else (blankRS, some ErrWaitTimeout)
  Update := fun _ _ => (blankRS, some conflictErr)

/-! ## Unfolding the closure -/

theorem condition_getErr (pre : preconditionFunc) (ap : updateRSFunc)
    {c : ReplicaSetInterface} {old : ReplicaSet} {f : Frame} {r : ReplicaSet} {e : GoError}
    (hg : c.Get f.calls old.Name = (r, some e)) :
    condition c old pre ap f =
      ((false, some e),
        { rs := r, err := some e, calls := f.calls ++ [Call.Get old.Name r (some e)] }) := by
  simp [condition, hg]

theorem condition_skip (pre : preconditionFunc) (ap : updateRSFunc)
    {c : ReplicaSetInterface} {old : ReplicaSet} {f : Frame} {r : ReplicaSet}
    (hg : c.Get f.calls old.Name = (r, none)) (hp : pre r = false) :
    condition c old pre ap f =
      ((true, none), { rs := r, err := none, calls := f.calls ++ skipBlock old.Name r }) := by
  simp [condition, hg, hp, skipBlock]

theorem condition_wrote (pre : preconditionFunc) (ap : updateRSFunc)
    {c : ReplicaSetInterface} {old : ReplicaSet} {f : Frame} {r w : ReplicaSet}
    (hg : c.Get f.calls old.Name = (r, none)) (hp : pre r = true)
    (hu : c.Update (f.calls ++ beforeWrite old.Name ap r) (ap r) = (w, none)) :
    condition c old pre ap f =
      ((true, none),
        { rs := w, err := none, calls := f.calls ++ writeBlock old.Name ap r w none }) := by
  simp [beforeWrite] at hu
  simp [condition, hg, hp, hu, writeBlock]

theorem condition_retry (pre : preconditionFunc) (ap : updateRSFunc)
    {c : ReplicaSetInterface} {old : ReplicaSet} {f : Frame} {r w : ReplicaSet} {e : GoError}
    (hg : c.Get f.calls old.Name = (r, none)) (hp : pre r = true)
    (hu : c.Update (f.calls ++ beforeWrite old.Name ap r) (ap r) = (w, some e)) :
    condition c old pre ap f =
      ((false, none),
        { rs := w, err := some e,
          calls := f.calls ++ writeBlock old.Name ap r w (some e) }) := by
  simp [beforeWrite] at hu
  simp [condition, hg, hp, hu, writeBlock]

/-- Case analysis and induction along the poll loop of `UpdateRSWithRetries`: a
property of (budget, starting frame, result) holds for every run as soon as it
holds when the budget is used up, when the fetch fails, when the precondition
fails, when the write succeeds, and is inherited from the rest of the run when
the write fails. -/
theorem pollLoop_cases (c : ReplicaSetInterface) (old : ReplicaSet)
    (pre : preconditionFunc) (ap : updateRSFunc)
    (motive : Nat → Frame → Option GoError × Frame → Prop)
    (exhausted : ∀ f, motive 0 f (some ErrWaitTimeout, f))
    (getErr : ∀ n f r e, c.Get f.calls old.Name = (r, some e) →
      motive (n + 1) f
        (some e, { rs := r, err := some e, calls := f.calls ++ [Call.Get old.Name r (some e)] }))
    (skip : ∀ n f r, c.Get f.calls old.Name = (r, none) → pre r = false →
      motive (n + 1) f
        (none, { rs := r, err := none, calls := f.calls ++ skipBlock old.Name r }))
    (wrote : ∀ n f r w, c.Get f.calls old.Name = (r, none) → pre r = true →
      c.Update (f.calls ++ beforeWrite old.Name ap r) (ap r) = (w, none) →
      motive (n + 1) f
        (none, { rs := w, err := none, calls := f.calls ++ writeBlock old.Name ap r w none }))
    (retry : ∀ n f r w e res, c.Get f.calls old.Name = (r, none) → pre r = true →
      c.Update (f.calls ++ beforeWrite old.Name ap r) (ap r) = (w, some e) →
      motive n { rs := w, err := some e,
                 calls := f.calls ++ writeBlock old.Name ap r w (some e) } res →
      motive (n + 1) f res) :
    ∀ n f, motive n f (pollLoop (condition c old pre ap) n f) := by
  intro n
  induction n with
  | zero => intro f; exact exhausted f
  | succ n ih =>
    intro f
    rcases hg : c.Get f.calls old.Name with ⟨r, _ | e⟩
    · cases hp : pre r
      · have h := condition_skip pre ap hg hp
        simp only [pollLoop, h]
        exact skip n f r hg hp
      · rcases hu : c.Update (f.calls ++ beforeWrite old.Name ap r) (ap r) with ⟨w, _ | e⟩
        · have h := condition_wrote pre ap hg hp hu
          simp only [pollLoop, h]
          exact wrote n f r w hg hp hu
        · have h := condition_retry pre ap hg hp hu
          simp only [pollLoop, h]
          exact retry n f r w e _ hg hp hu (ih _)
    · have h := condition_getErr pre ap hg
      simp only [pollLoop, h]
      exact getErr n f r e hg

/-- The budget of the poll in `UpdateRSWithRetries` is 6001 passes. -/
theorem attempts_eq : attempts = 6001 := by
  simp [attempts, pollBudget, Minute, Millisecond]

/-- The run of `UpdateRSWithRetries` in terms of its poll loop. -/
theorem UpdateRSWithRetries_eq (c : ReplicaSetInterface) (rs : ReplicaSet)
    (pre : preconditionFunc) (ap : updateRSFunc) :
    UpdateRSWithRetries c rs pre ap =
      let polled := pollLoop (condition c rs pre ap) attempts
        { rs := rs, err := none, calls := [] }
      { rs := polled.2.rs
        rsUpdated := polled.1 == none
        err := if IsNotFound (if polled.1 = some ErrWaitTimeout then some (timedOutError rs)
                 else polled.1) then none
               else (if polled.1 = some ErrWaitTimeout then some (timedOutError rs)
                 else polled.1)
        calls := polled.2.calls } := rfl

/-! ## Counting calls -/

@[simp] theorem getCount_append (a b : List Call) :
    getCount (a ++ b) = getCount a + getCount b := by
  simp [getCount]

@[simp] theorem updateCount_append (a b : List Call) :
    updateCount (a ++ b) = updateCount a + updateCount b := by
  simp [updateCount]

@[simp] theorem getCount_nil : getCount [] = 0 := rfl

@[simp] theorem updateCount_nil : updateCount [] = 0 := rfl

@[simp] theorem getCount_skipBlock (name : String) (r : ReplicaSet) :
    getCount (skipBlock name r) = 1 := rfl

@[simp] theorem updateCount_skipBlock (name : String) (r : ReplicaSet) :
    updateCount (skipBlock name r) = 0 := rfl

@[simp] theorem getCount_writeBlock (name : String) (ap : updateRSFunc) (r w : ReplicaSet)
    (e : Option GoError) : getCount (writeBlock name ap r w e) = 1 := rfl

@[simp] theorem updateCount_writeBlock (name : String) (ap : updateRSFunc) (r w : ReplicaSet)
    (e : Option GoError) : updateCount (writeBlock name ap r w e) = 1 := rfl

@[simp] theorem updateCount_beforeWrite (name : String) (ap : updateRSFunc) (r : ReplicaSet) :
    updateCount (beforeWrite name ap r) = 0 := rfl

theorem writeBlock_eq (name : String) (ap : updateRSFunc) (r w : ReplicaSet)
    (e : Option GoError) :
    writeBlock name ap r w e = beforeWrite name ap r ++ [Call.Update (ap r) w e] := rfl

/-! ## The first pass -/

/-- A run whose first fetch fails makes that one call and hands back what the fetch
returned; the error goes through the two rewrites after the poll. -/
theorem UpdateRSWithRetries_getErr (c : ReplicaSetInterface) (rs : ReplicaSet)
    (pre : preconditionFunc) (ap : updateRSFunc) (r : ReplicaSet) (e : GoError)
    (hg : c.Get [] rs.Name = (r, some e)) :
    UpdateRSWithRetries c rs pre ap =
      { rs := r
        rsUpdated := false
        err := if IsNotFound (if e = ErrWaitTimeout then some (timedOutError rs) else some e)
          then none else (if e = ErrWaitTimeout then some (timedOutError rs) else some e)
        calls := [Call.Get rs.Name r (some e)] } := by
  have h : condition c rs pre ap { rs := rs, err := none, calls := [] } = _ :=
    condition_getErr pre ap hg
  rw [UpdateRSWithRetries_eq, attempts_eq]
  simp only [pollLoop, h]
  simp

/-- A run whose first fetch succeeds with a resource on which the precondition is
false makes the fetch and the precondition check only, and reports
`rsUpdated = true`. -/
theorem UpdateRSWithRetries_skip (c : ReplicaSetInterface) (rs : ReplicaSet)
    (pre : preconditionFunc) (ap : updateRSFunc) (s : ReplicaSet)
    (hg : c.Get [] rs.Name = (s, none)) (hp : pre s = false) :
    UpdateRSWithRetries c rs pre ap =
      { rs := s, rsUpdated := true, err := none, calls := skipBlock rs.Name s } := by
  have h : condition c rs pre ap { rs := rs, err := none, calls := [] } = _ :=
    condition_skip pre ap hg hp
  rw [UpdateRSWithRetries_eq, attempts_eq]
  simp only [pollLoop, h]
  simp [IsNotFound]

/-! ## Invariants of the poll loop -/

/-- A failed fetch ends the loop: if the calls added by the loop contain a `Get`
that returned an error, that call is the last one, it occurs only there, and the
loop returns its error and its resource. -/
theorem pollLoop_failedGet_last (c : ReplicaSetInterface) (old : ReplicaSet)
    (pre : preconditionFunc) (ap : updateRSFunc) (n : Nat) (f : Frame) :
    ∃ ext, (pollLoop (condition c old pre ap) n f).2.calls = f.calls ++ ext ∧
      ∀ name r e, Call.Get name r (some e) ∈ ext →
        (∃ before, ext = before ++ [Call.Get name r (some e)] ∧
          Call.Get name r (some e) ∉ before) ∧
        (pollLoop (condition c old pre ap) n f).1 = some e ∧
        (pollLoop (condition c old pre ap) n f).2.rs = r := by
  refine pollLoop_cases c old pre ap
    (fun _ f res => ∃ ext, res.2.calls = f.calls ++ ext ∧
      ∀ name r e, Call.Get name r (some e) ∈ ext →
        (∃ before, ext = before ++ [Call.Get name r (some e)] ∧
          Call.Get name r (some e) ∉ before) ∧ res.1 = some e ∧ res.2.rs = r)
    ?_ ?_ ?_ ?_ ?_ n f
  · intro f
    exact ⟨[], by simp, by simp⟩
  · intro _ f r e _
    refine ⟨[Call.Get old.Name r (some e)], rfl, ?_⟩
    intro name r1 e1 hmem
    simp only [List.mem_singleton, Call.Get.injEq, Option.some.injEq] at hmem
    obtain ⟨h1, h2, h3⟩ := hmem
    subst h1 h2 h3
    exact ⟨⟨[], by simp, by simp⟩, rfl, rfl⟩
  · intro _ f r _ _
    refine ⟨skipBlock old.Name r, rfl, ?_⟩
    intro name r1 e1 hmem
    simp [skipBlock] at hmem
  · intro _ f r w _ _ _
    refine ⟨writeBlock old.Name ap r w none, rfl, ?_⟩
    intro name r1 e1 hmem
    simp [writeBlock] at hmem
  · intro _ f r w e res _ _ _ ih
    obtain ⟨ext, hcalls, hext⟩ := ih
    refine ⟨writeBlock old.Name ap r w (some e) ++ ext, by simpa using hcalls, ?_⟩
    intro name r1 e1 hmem
    have hnot : Call.Get name r1 (some e1) ∉ writeBlock old.Name ap r w (some e) := by
      simp [writeBlock]
    rcases List.mem_append.mp hmem with h | h
    · exact absurd h hnot
    · obtain ⟨⟨before, hb, hnb⟩, h1, h2⟩ := hext name r1 e1 h
      refine ⟨⟨writeBlock old.Name ap r w (some e) ++ before, by simp [hb], ?_⟩, h1, h2⟩
      intro hm
      rcases List.mem_append.mp hm with h | h
      · exact hnot h
      · exact hnb h

/-- The loop makes at most one fetch per unit of budget and at most one write per
fetch. -/
theorem pollLoop_counts (c : ReplicaSetInterface) (old : ReplicaSet)
    (pre : preconditionFunc) (ap : updateRSFunc) (n : Nat) (f : Frame) :
    ∃ g u, getCount (pollLoop (condition c old pre ap) n f).2.calls = getCount f.calls + g ∧
      updateCount (pollLoop (condition c old pre ap) n f).2.calls = updateCount f.calls + u ∧
      u ≤ g ∧ g ≤ n := by
  refine pollLoop_cases c old pre ap
    (fun n f res => ∃ g u, getCount res.2.calls = getCount f.calls + g ∧
      updateCount res.2.calls = updateCount f.calls + u ∧ u ≤ g ∧ g ≤ n)
    ?_ ?_ ?_ ?_ ?_ n f
  · intro f
    exact ⟨0, 0, rfl, rfl, le_refl _, le_refl _⟩
  · intro n f r e _
    refine ⟨1, 0, ?_, ?_, by omega, by omega⟩
    · simp [getCount]
    · simp [updateCount]
  · intro n f r _ _
    exact ⟨1, 0, by simp, by simp, by omega, by omega⟩
  · intro n f r w _ _ _
    exact ⟨1, 1, by simp, by simp, by omega, by omega⟩
  · intro n f r w e res _ _ _ ih
    obtain ⟨g, u, hg, hu, hle, hn⟩ := ih
    refine ⟨g + 1, u + 1, ?_, ?_, by omega, by omega⟩
    · simp at hg; omega
    · simp at hu; omega

/-- The calls added by the loop split into passes of the three shapes of
`Iteration`. -/
theorem pollLoop_iterations (c : ReplicaSetInterface) (old : ReplicaSet)
    (pre : preconditionFunc) (ap : updateRSFunc) (n : Nat) (f : Frame) :
    ∃ its : List (List Call),
      (pollLoop (condition c old pre ap) n f).2.calls = f.calls ++ its.flatten ∧
      its.length ≤ n ∧ ∀ it ∈ its, Iteration old.Name pre ap it := by
  refine pollLoop_cases c old pre ap
    (fun n f res => ∃ its : List (List Call), res.2.calls = f.calls ++ its.flatten ∧
      its.length ≤ n ∧ ∀ it ∈ its, Iteration old.Name pre ap it)
    ?_ ?_ ?_ ?_ ?_ n f
  · intro f
    exact ⟨[], by simp, by simp, by simp⟩
  · intro n f r e _
    refine ⟨[[Call.Get old.Name r (some e)]], by simp, by simp, ?_⟩
    intro it hit
    simp only [List.mem_singleton] at hit
    subst hit
    exact Iteration.fetchFailed r e
  · intro n f r _ hp
    refine ⟨[skipBlock old.Name r], by simp, by simp, ?_⟩
    intro it hit
    simp only [List.mem_singleton] at hit
    subst hit
    exact Iteration.skipped r hp
  · intro n f r w _ hp _
    refine ⟨[writeBlock old.Name ap r w none], by simp, by simp, ?_⟩
    intro it hit
    simp only [List.mem_singleton] at hit
    subst hit
    exact Iteration.written r w none hp
  · intro n f r w e res _ hp _ ih
    obtain ⟨its, hcalls, hlen, hits⟩ := ih
    refine ⟨writeBlock old.Name ap r w (some e) :: its, by simpa using hcalls,
      by simpa using hlen, ?_⟩
    intro it hit
    rcases List.mem_cons.mp hit with h | h
    · subst h
      exact Iteration.written r w (some e) hp
    · exact hits it h

/-- A conflict is an error. -/
theorem IsConflict_some {x : Option GoError} (h : IsConflict x = true) : ∃ e, x = some e := by
  cases x with
  | none => simp [IsConflict] at h
  | some e => exact ⟨e, rfl⟩

/-- When every fetch succeeds with a resource satisfying the precondition and every
write fails, the loop uses its whole budget, one fetch and one write per
attempt, and reports the timeout sentinel. -/
theorem pollLoop_allWritesFail (c : ReplicaSetInterface) (old : ReplicaSet)
    (pre : preconditionFunc) (ap : updateRSFunc)
    (hget : ∀ log name, (c.Get log name).2 = none)
    (hpre : ∀ log name, pre (c.Get log name).1 = true)
    (hfail : ∀ log a, ∃ e, (c.Update log a).2 = some e) (n : Nat) (f : Frame) :
    (pollLoop (condition c old pre ap) n f).1 = some ErrWaitTimeout ∧
      getCount (pollLoop (condition c old pre ap) n f).2.calls = getCount f.calls + n ∧
      updateCount (pollLoop (condition c old pre ap) n f).2.calls =
        updateCount f.calls + n := by
  refine pollLoop_cases c old pre ap
    (fun n f res => res.1 = some ErrWaitTimeout ∧
      getCount res.2.calls = getCount f.calls + n ∧
      updateCount res.2.calls = updateCount f.calls + n)
    ?_ ?_ ?_ ?_ ?_ n f
  · intro f
    exact ⟨rfl, rfl, rfl⟩
  · intro n f r e hg
    have := hget f.calls old.Name
    simp [hg] at this
  · intro n f r hg hp
    have := hpre f.calls old.Name
    simp [hg, hp] at this
  · intro n f r w _ _ hu
    obtain ⟨e, he⟩ := hfail (f.calls ++ beforeWrite old.Name ap r) (ap r)
    simp [hu] at he
  · intro n f r w e res _ _ _ ih
    obtain ⟨h1, h2, h3⟩ := ih
    refine ⟨h1, ?_, ?_⟩
    · simp at h2; omega
    · simp at h3; omega

/-- When every fetch succeeds with a resource satisfying the precondition, the writes
numbered below `K` conflict and write number `K` succeeds, a loop that starts
`d` writes short of `K` with more than `d` attempts left ends with that
successful write, after `d + 1` fetches and `d + 1` writes. -/
theorem pollLoop_conflictsThenOk (c : ReplicaSetInterface) (old : ReplicaSet)
    (pre : preconditionFunc) (ap : updateRSFunc) (K : Nat)
    (hget : ∀ log name, (c.Get log name).2 = none)
    (hpre : ∀ log name, pre (c.Get log name).1 = true)
    (hconf : ∀ log a, updateCount log < K → IsConflict (c.Update log a).2 = true)
    (hok : ∀ log a, updateCount log = K → (c.Update log a).2 = none) :
    ∀ (d n : Nat) (f : Frame), updateCount f.calls + d = K → d < n →
      ∃ log a w, pollLoop (condition c old pre ap) n f =
          (none, { rs := w, err := none, calls := log ++ [Call.Update a w none] }) ∧
        c.Update log a = (w, none) ∧
        updateCount log = K ∧
        getCount (log ++ [Call.Update a w none]) = getCount f.calls + d + 1 := by
  intro d
  induction d with
  | zero =>
    intro n f hK hn
    obtain ⟨m, rfl⟩ : ∃ m, n = m + 1 := ⟨n - 1, by omega⟩
    rcases hg : c.Get f.calls old.Name with ⟨r, g⟩
    have hg2 := hget f.calls old.Name
    rw [hg] at hg2
    simp only at hg2
    subst hg2
    have hp := hpre f.calls old.Name
    rw [hg] at hp
    simp only at hp
    rcases hu : c.Update (f.calls ++ beforeWrite old.Name ap r) (ap r) with ⟨w, u⟩
    have hu2 := hok (f.calls ++ beforeWrite old.Name ap r) (ap r) (by simp; omega)
    rw [hu] at hu2
    simp only at hu2
    subst hu2
    refine ⟨f.calls ++ beforeWrite old.Name ap r, ap r, w, ?_, hu, by simp; omega, ?_⟩
    · have h := condition_wrote pre ap hg hp hu
      simp only [pollLoop, h, writeBlock_eq, List.append_assoc]
    · simp [getCount, beforeWrite]
  | succ d ih =>
    intro n f hK hn
    obtain ⟨m, rfl⟩ : ∃ m, n = m + 1 := ⟨n - 1, by omega⟩
    rcases hg : c.Get f.calls old.Name with ⟨r, g⟩
    have hg2 := hget f.calls old.Name
    rw [hg] at hg2
    simp only at hg2
    subst hg2
    have hp := hpre f.calls old.Name
    rw [hg] at hp
    simp only at hp
    rcases hu : c.Update (f.calls ++ beforeWrite old.Name ap r) (ap r) with ⟨w, u⟩
    have hu2 := hconf (f.calls ++ beforeWrite old.Name ap r) (ap r) (by simp; omega)
    rw [hu] at hu2
    simp only at hu2
    obtain ⟨e, rfl⟩ := IsConflict_some hu2
    have h := condition_retry pre ap hg hp hu
    obtain ⟨log, a, w1, h1, h2, h3, h4⟩ :=
      ih m { rs := w, err := some e, calls := f.calls ++ writeBlock old.Name ap r w (some e) }
        (by simp; omega) (by omega)
    refine ⟨log, a, w1, ?_, h2, h3, ?_⟩
    · simp only [pollLoop, h]
      exact h1
    · rw [h4]; simp; omega

/-! ## The claims -/

/-- C1 (the code departs from the claim): on a store whose first fetch succeeds with
the snapshot `rs1 1 3` and a precondition that is false on it, the run returns
that snapshot with a nil error after the fetch and the precondition check only
(no `applyUpdate`, no `Update`), but with `rsUpdated = true`, not `false`. -/
theorem C1_skip_returns_snapshot_flagged_updated :
    UpdateRSWithRetries scenarioStore (rs1 1 3) neverHolds scenarioUpdate =
      { rs := rs1 1 3, rsUpdated := true, err := none,
        calls := [Call.Get "rs-1" (rs1 1 3) none, Call.preconditionHold (rs1 1 3) false] } := by
  decide

/-- C2: whenever a `Get` of the run fails with a NotFound error, that `Get` is the
last call of the run (it occurs nowhere earlier in the log and nothing follows
it), the returned error is nil and `rsUpdated` is false. -/
theorem C2_notFound_fetch_ends_run (c : ReplicaSetInterface) (rs : ReplicaSet)
    (pre : preconditionFunc) (ap : updateRSFunc) (name : String) (r : ReplicaSet)
    (e : GoError)
    (hmem : Call.Get name r (some e) ∈ (UpdateRSWithRetries c rs pre ap).calls)
    (hnf : IsNotFound (some e) = true) :
    (∃ before, (UpdateRSWithRetries c rs pre ap).calls = before ++ [Call.Get name r (some e)] ∧
      Call.Get name r (some e) ∉ before) ∧
    (UpdateRSWithRetries c rs pre ap).err = none ∧
    (UpdateRSWithRetries c rs pre ap).rsUpdated = false := by
  obtain ⟨ext, hcalls, hext⟩ := pollLoop_failedGet_last c rs pre ap attempts
    { rs := rs, err := none, calls := [] }
  simp only [List.nil_append] at hcalls
  rw [UpdateRSWithRetries_eq] at hmem ⊢
  simp only at hmem ⊢
  rw [hcalls] at hmem ⊢
  obtain ⟨hlast, herr, _⟩ := hext name r e hmem
  refine ⟨hlast, ?_, ?_⟩
  · rw [herr]
    have hne : ¬ (some e = some ErrWaitTimeout) := by
      intro h
      rw [h] at hnf
      simp [IsNotFound, ErrWaitTimeout] at hnf
    simp [hne, hnf]
  · rw [herr]
    rfl

/-- Witness of C2: the resource vanishes after a conflicting write; the second fetch
fails with NotFound and ends the run. -/
theorem C2_notFound_fetch_ends_run_witness :
    Call.Get "rs-1" blankRS (some notFoundErr) ∈
        (UpdateRSWithRetries vanishingStore (rs1 1 3) scenarioPrecondition scenarioUpdate).calls ∧
      IsNotFound (some notFoundErr) = true ∧
      ((∃ before,
          (UpdateRSWithRetries vanishingStore (rs1 1 3) scenarioPrecondition
              scenarioUpdate).calls = before ++ [Call.Get "rs-1" blankRS (some notFoundErr)] ∧
            Call.Get "rs-1" blankRS (some notFoundErr) ∉ before) ∧
        (UpdateRSWithRetries vanishingStore (rs1 1 3) scenarioPrecondition scenarioUpdate).err
          = none ∧
        (UpdateRSWithRetries vanishingStore (rs1 1 3) scenarioPrecondition
          scenarioUpdate).rsUpdated = false) :=
  ⟨by decide, by decide,
    C2_notFound_fetch_ends_run vanishingStore (rs1 1 3) scenarioPrecondition scenarioUpdate
      "rs-1" blankRS notFoundErr (by decide) (by decide)⟩

/-- C3 (counterexample): a store whose first fetch fails with the error value
`wait.ErrWaitTimeout`, which is not a NotFound error; the run does not return
that error but the freshly built timed-out error. -/
theorem C3_sentinel_fetch_error_not_returned :
    sentinelStore.Get [] (rs1 1 3).Name = (blankRS, some ErrWaitTimeout) ∧
      IsNotFound (some ErrWaitTimeout) = false ∧
      (UpdateRSWithRetries sentinelStore (rs1 1 3) scenarioPrecondition scenarioUpdate).err
        = some (timedOutError (rs1 1 3)) ∧
      (UpdateRSWithRetries sentinelStore (rs1 1 3) scenarioPrecondition scenarioUpdate).err
        ≠ some ErrWaitTimeout := by
  have h := UpdateRSWithRetries_getErr sentinelStore (rs1 1 3) scenarioPrecondition
    scenarioUpdate blankRS ErrWaitTimeout rfl
  refine ⟨rfl, rfl, ?_, ?_⟩
  · rw [h]
    simp [IsNotFound, timedOutError]
  · rw [h]
    simp [IsNotFound, timedOutError, ErrWaitTimeout]

/-- C3 (amended): when the first fetch fails with an error `e` that is neither a
NotFound error nor the value `wait.ErrWaitTimeout`, the run returns exactly `e`
with `rsUpdated = false` and its only call is that one `Get`. -/
theorem C3_first_fetch_error_returned (c : ReplicaSetInterface) (rs : ReplicaSet)
    (pre : preconditionFunc) (ap : updateRSFunc) (r : ReplicaSet) (e : GoError)
    (hg : c.Get [] rs.Name = (r, some e)) (hnf : IsNotFound (some e) = false)
    (hne : e ≠ ErrWaitTimeout) :
    UpdateRSWithRetries c rs pre ap =
      { rs := r, rsUpdated := false, err := some e,
        calls := [Call.Get rs.Name r (some e)] } := by
  rw [UpdateRSWithRetries_getErr c rs pre ap r e hg]
  simp [hne, hnf]

/-- Witness of C3 (amended): a fetch refused with a permission error. -/
theorem C3_first_fetch_error_returned_witness :
    forbiddenGetStore.Get [] (rs1 1 3).Name = (blankRS, some forbiddenErr) ∧
      IsNotFound (some forbiddenErr) = false ∧ forbiddenErr ≠ ErrWaitTimeout ∧
      UpdateRSWithRetries forbiddenGetStore (rs1 1 3) scenarioPrecondition scenarioUpdate =
        { rs := blankRS, rsUpdated := false, err := some forbiddenErr,
          calls := [Call.Get (rs1 1 3).Name blankRS (some forbiddenErr)] } :=
  ⟨rfl, rfl, by decide,
    C3_first_fetch_error_returned forbiddenGetStore (rs1 1 3) scenarioPrecondition
      scenarioUpdate blankRS forbiddenErr rfl rfl (by decide)⟩

/-- C4 (the code departs from the claim): on a store whose first write is refused
with a permission error (not a Conflict), the run does not stop at that write:
it fetches and writes a second time and returns a nil error with
`rsUpdated = true`. -/
theorem C4_refused_write_is_retried :
    IsConflict (some forbiddenErr) = false ∧
      UpdateRSWithRetries forbiddenOnceStore (rs1 1 3) scenarioPrecondition scenarioUpdate =
        { rs := rs1 2 4, rsUpdated := true, err := none,
          calls :=
            [Call.Get "rs-1" (rs1 1 3) none, Call.preconditionHold (rs1 1 3) true,
              Call.applyUpdate (rs1 1 3) (rs1 1 4),
              Call.Update (rs1 1 4) blankRS (some forbiddenErr),
              Call.Get "rs-1" (rs1 1 3) none, Call.preconditionHold (rs1 1 3) true,
              Call.applyUpdate (rs1 1 3) (rs1 1 4),
              Call.Update (rs1 1 4) (rs1 2 4) none] } := by
  decide

/-- C5: for `k` below the attempt budget, if every fetch succeeds with a resource
satisfying the precondition, the writes numbered below `k` fail with Conflict
and write number `k` (the `(k+1)`-th) succeeds, then the run ends with that
write: it returns the resource `w` this write returned, `rsUpdated = true` and a
nil error, after exactly `k + 1` `Get` calls and `k + 1` `Update` calls. -/
theorem C5_conflicts_then_success (c : ReplicaSetInterface) (rs : ReplicaSet)
    (pre : preconditionFunc) (ap : updateRSFunc) (k : Nat) (hk : k < attempts)
    (hget : ∀ log name, (c.Get log name).2 = none)
    (hpre : ∀ log name, pre (c.Get log name).1 = true)
    (hconf : ∀ log a, updateCount log < k → IsConflict (c.Update log a).2 = true)
    (hok : ∀ log a, updateCount log = k → (c.Update log a).2 = none) :
    ∃ log a w, updateCount log = k ∧ c.Update log a = (w, none) ∧
      UpdateRSWithRetries c rs pre ap =
        { rs := w, rsUpdated := true, err := none, calls := log ++ [Call.Update a w none] } ∧
      getCount (UpdateRSWithRetries c rs pre ap).calls = k + 1 ∧
      updateCount (UpdateRSWithRetries c rs pre ap).calls = k + 1 := by
  obtain ⟨log, a, w, hrun, hupd, hcount, hgets⟩ :=
    pollLoop_conflictsThenOk c rs pre ap k hget hpre hconf hok k attempts
      { rs := rs, err := none, calls := [] } (by simp) hk
  have hout : UpdateRSWithRetries c rs pre ap =
      { rs := w, rsUpdated := true, err := none, calls := log ++ [Call.Update a w none] } := by
    rw [UpdateRSWithRetries_eq]
    simp only [hrun]
    simp [IsNotFound]
  refine ⟨log, a, w, hcount, hupd, hout, ?_, ?_⟩
  · rw [hout]
    simpa using hgets
  · rw [hout]
    rw [updateCount_append, hcount]
    rfl

/-- Witness of C5: the spec's scenario, one conflict (`k = 1`) followed by a successful
write; the run returns the resource with version 3 and 5 replicas. -/
theorem C5_conflicts_then_success_witness :
    (1 < attempts) ∧
      (∀ log name, (scenarioStore.Get log name).2 = none) ∧
      (∀ log name, scenarioPrecondition (scenarioStore.Get log name).1 = true) ∧
      (∀ log a, updateCount log < 1 → IsConflict (scenarioStore.Update log a).2 = true) ∧
      (∀ log a, updateCount log = 1 → (scenarioStore.Update log a).2 = none) ∧
      (∃ log a w, updateCount log = 1 ∧ scenarioStore.Update log a = (w, none) ∧
        UpdateRSWithRetries scenarioStore (rs1 1 3) scenarioPrecondition scenarioUpdate =
          { rs := w, rsUpdated := true, err := none,
            calls := log ++ [Call.Update a w none] } ∧
        getCount (UpdateRSWithRetries scenarioStore (rs1 1 3) scenarioPrecondition
          scenarioUpdate).calls = 1 + 1 ∧
        updateCount (UpdateRSWithRetries scenarioStore (rs1 1 3) scenarioPrecondition
          scenarioUpdate).calls = 1 + 1) ∧
      (UpdateRSWithRetries scenarioStore (rs1 1 3) scenarioPrecondition scenarioUpdate).rs
        = rs1 3 5 ∧
      (UpdateRSWithRetries scenarioStore (rs1 1 3) scenarioPrecondition
        scenarioUpdate).rsUpdated = true ∧
      (UpdateRSWithRetries scenarioStore (rs1 1 3) scenarioPrecondition scenarioUpdate).err
        = none := by
  have hget : ∀ log name, (scenarioStore.Get log name).2 = none := by
    intro log name
    simp only [scenarioStore]
    split <;> rfl
  have hpre : ∀ log name, scenarioPrecondition (scenarioStore.Get log name).1 = true := by
    intro log name
    simp only [scenarioStore]
    split <;> decide
  have hconf : ∀ log a, updateCount log < 1 →
      IsConflict (scenarioStore.Update log a).2 = true := by
    intro log a h
    have h0 : updateCount log = 0 := by omega
    simp [scenarioStore, h0, IsConflict]
  have hok : ∀ log a, updateCount log = 1 → (scenarioStore.Update log a).2 = none := by
    intro log a h
    simp [scenarioStore, h]
  exact ⟨by rw [attempts_eq]; decide, hget, hpre, hconf, hok,
    C5_conflicts_then_success scenarioStore (rs1 1 3) scenarioPrecondition scenarioUpdate 1
      (by rw [attempts_eq]; decide) hget hpre hconf hok,
    by decide, by decide, by decide⟩

/-- C6: if every fetch succeeds with a resource satisfying the precondition and every
write fails with Conflict, the poll ends by using up its budget (it reports the
timeout sentinel, after one `Get` and one `Update` in every pass), and the run
returns `rsUpdated = false` with the non-nil error that `fmt.Errorf` builds from
the timed-out format and the resource the caller passed in; that error is not a
NotFound error, so it is not suppressed. -/
theorem C6_permanent_conflict_times_out (c : ReplicaSetInterface) (rs : ReplicaSet)
    (pre : preconditionFunc) (ap : updateRSFunc)
    (hget : ∀ log name, (c.Get log name).2 = none)
    (hpre : ∀ log name, pre (c.Get log name).1 = true)
    (hconf : ∀ log a, IsConflict (c.Update log a).2 = true) :
    (Poll (10 * Millisecond) (1 * Minute) (condition c rs pre ap)
        { rs := rs, err := none, calls := [] }).1 = some ErrWaitTimeout ∧
      (UpdateRSWithRetries c rs pre ap).err =
        some (GoError.errorf "timed out trying to update RS: %+v" rs) ∧
      (UpdateRSWithRetries c rs pre ap).err ≠ none ∧
      (UpdateRSWithRetries c rs pre ap).rsUpdated = false ∧
      IsNotFound (UpdateRSWithRetries c rs pre ap).err = false ∧
      getCount (UpdateRSWithRetries c rs pre ap).calls = attempts ∧
      updateCount (UpdateRSWithRetries c rs pre ap).calls = attempts := by
  obtain ⟨herr, hgets, hupds⟩ := pollLoop_allWritesFail c rs pre ap hget hpre
    (fun log a => IsConflict_some (hconf log a)) attempts
    { rs := rs, err := none, calls := [] }
  have herr2 : (UpdateRSWithRetries c rs pre ap).err =
      some (GoError.errorf "timed out trying to update RS: %+v" rs) := by
    rw [UpdateRSWithRetries_eq]
    simp only [herr]
    simp [IsNotFound, timedOutError]
  refine ⟨herr, herr2, ?_, ?_, ?_, ?_, ?_⟩
  · rw [herr2]
    simp
  · rw [UpdateRSWithRetries_eq]
    simp only [herr]
    rfl
  · rw [herr2]
    rfl
  · rw [UpdateRSWithRetries_eq]
    simpa using hgets
  · rw [UpdateRSWithRetries_eq]
    simpa using hupds

/-- Witness of C6: a store under permanent contention that holds the resource at
version 1 with 3 replicas, while the caller passes in a snapshot at version 7
with 7 replicas; the error carries the caller's snapshot. -/
theorem C6_permanent_conflict_times_out_witness :
    (∀ log name, (contendedStore.Get log name).2 = none) ∧
      (∀ log name, scenarioPrecondition (contendedStore.Get log name).1 = true) ∧
      (∀ log a, IsConflict (contendedStore.Update log a).2 = true) ∧
      ((Poll (10 * Millisecond) (1 * Minute)
          (condition contendedStore (rs1 7 7) scenarioPrecondition scenarioUpdate)
          { rs := rs1 7 7, err := none, calls := [] }).1 = some ErrWaitTimeout ∧
        (UpdateRSWithRetries contendedStore (rs1 7 7) scenarioPrecondition scenarioUpdate).err =
          some (GoError.errorf "timed out trying to update RS: %+v" (rs1 7 7)) ∧
        (UpdateRSWithRetries contendedStore (rs1 7 7) scenarioPrecondition scenarioUpdate).err
          ≠ none ∧
        (UpdateRSWithRetries contendedStore (rs1 7 7) scenarioPrecondition
          scenarioUpdate).rsUpdated = false ∧
        IsNotFound (UpdateRSWithRetries contendedStore (rs1 7 7) scenarioPrecondition
          scenarioUpdate).err = false ∧
        getCount (UpdateRSWithRetries contendedStore (rs1 7 7) scenarioPrecondition
          scenarioUpdate).calls = attempts ∧
        updateCount (UpdateRSWithRetries contendedStore (rs1 7 7) scenarioPrecondition
          scenarioUpdate).calls = attempts) :=
  ⟨fun _ _ => rfl, fun _ _ => rfl, fun _ _ => rfl,
    C6_permanent_conflict_times_out contendedStore (rs1 7 7) scenarioPrecondition
      scenarioUpdate (fun _ _ => rfl) (fun _ _ => rfl) (fun _ _ => rfl)⟩

/-- C7 (the code departs from the claim): on a store whose writes never succeed and
with a precondition that never holds, the run returns a nil error and
`rsUpdated = true` although it made no `Update` call at all; the returned
resource is the fetched snapshot, not the result of a write. -/
theorem C7_updated_without_any_write :
    (UpdateRSWithRetries contendedStore (rs1 1 3) neverHolds scenarioUpdate).err = none ∧
      (UpdateRSWithRetries contendedStore (rs1 1 3) neverHolds scenarioUpdate).rsUpdated
        = true ∧
      updateCount (UpdateRSWithRetries contendedStore (rs1 1 3) neverHolds
        scenarioUpdate).calls = 0 ∧
      (UpdateRSWithRetries contendedStore (rs1 1 3) neverHolds scenarioUpdate).calls =
        [Call.Get "rs-1" (rs1 1 3) none, Call.preconditionHold (rs1 1 3) false] ∧
      (UpdateRSWithRetries contendedStore (rs1 1 3) neverHolds scenarioUpdate).rs = rs1 1 3 := by
  decide

/-- C8 (the code departs from the claim): on a store in which the resource does not
exist, the first fetch fails with NotFound and hands back the zero resource
next to the error. The run returns a nil error and `rsUpdated = false`, as
claimed, but the resource it returns is that zero resource, not the resource
the caller passed in. -/
theorem C8_notFound_returns_fetched_value :
    absentStore.Get [] (rs1 1 3).Name = (blankRS, some notFoundErr) ∧
      IsNotFound (some notFoundErr) = true ∧
      UpdateRSWithRetries absentStore (rs1 1 3) scenarioPrecondition scenarioUpdate =
        { rs := blankRS, rsUpdated := false, err := none,
          calls := [Call.Get "rs-1" blankRS (some notFoundErr)] } ∧
      (UpdateRSWithRetries absentStore (rs1 1 3) scenarioPrecondition scenarioUpdate).rs
        ≠ rs1 1 3 := by
  decide

/-- C10: the call log of every run is a sequence of passes, each of one of three
shapes: a failed `Get`; a successful `Get` of `r` with the precondition false on
`r` (no `applyUpdate`, no `Update`); or a successful `Get` of `r` with the
precondition true on `r`, then exactly one `applyUpdate` on that `r`, then one
`Update` whose argument is `applyUpdate r` for the `r` fetched in this same
pass. -/
theorem C10_mutation_once_per_pass_on_fresh_snapshot (c : ReplicaSetInterface)
    (rs : ReplicaSet) (pre : preconditionFunc) (ap : updateRSFunc) :
    ∃ its : List (List Call),
      (UpdateRSWithRetries c rs pre ap).calls = its.flatten ∧
      ∀ it ∈ its, Iteration rs.Name pre ap it := by
  obtain ⟨its, hcalls, _, hits⟩ := pollLoop_iterations c rs pre ap attempts
    { rs := rs, err := none, calls := [] }
  refine ⟨its, ?_, hits⟩
  rw [UpdateRSWithRetries_eq]
  simpa using hcalls

/-! ## Independence from the caller's snapshot -/

/-- The closure reads the caller's resource only through its name, and the frame only
through its call log. -/
theorem condition_congr (c : ReplicaSetInterface) (pre : preconditionFunc)
    (ap : updateRSFunc) (old old2 : ReplicaSet) (hname : old.Name = old2.Name)
    (f f2 : Frame) (hcalls : f.calls = f2.calls) :
    condition c old pre ap f = condition c old2 pre ap f2 := by
  simp only [condition, hname, hcalls]

/-- A poll loop with at least one attempt left gives the same result for two callers'
resources of the same name, whatever the captured variables held before. -/
theorem pollLoop_congr (c : ReplicaSetInterface) (pre : preconditionFunc)
    (ap : updateRSFunc) (old old2 : ReplicaSet) (hname : old.Name = old2.Name)
    (n : Nat) (f f2 : Frame) (hcalls : f.calls = f2.calls) :
    pollLoop (condition c old pre ap) (n + 1) f =
      pollLoop (condition c old2 pre ap) (n + 1) f2 := by
  have hfun : condition c old pre ap = condition c old2 pre ap :=
    funext fun g => condition_congr c pre ap old old2 hname g g rfl
  rw [hfun]
  simp only [pollLoop]
  rw [condition_congr c pre ap old2 old2 rfl f f2 hcalls]

/-! ## How a run ends -/

/-- The four ways the poll loop can end, read off the last call of the log: a failed
`Get` (its error is the loop's error); a successful `Get` followed by a
precondition check that said `false` (no error); a successful `Update` (no error); or the budget used up (the
timeout sentinel), in which case every attempt made one `Get` and, if there was
any attempt, the last call is a failed `Update`. -/
theorem pollLoop_ending (c : ReplicaSetInterface) (old : ReplicaSet)
    (pre : preconditionFunc) (ap : updateRSFunc) (n : Nat) (f : Frame) :
    (∃ r e, (pollLoop (condition c old pre ap) n f).2.calls.getLast?
          = some (Call.Get old.Name r (some e)) ∧
        (pollLoop (condition c old pre ap) n f).1 = some e ∧
        (pollLoop (condition c old pre ap) n f).2.rs = r) ∨
    (∃ before r, (pollLoop (condition c old pre ap) n f).2.calls
          = before ++ [Call.Get old.Name r none, Call.preconditionHold r false] ∧
        pre r = false ∧
        (pollLoop (condition c old pre ap) n f).1 = none ∧
        (pollLoop (condition c old pre ap) n f).2.rs = r) ∨
    (∃ a w, (pollLoop (condition c old pre ap) n f).2.calls.getLast?
          = some (Call.Update a w none) ∧
        (pollLoop (condition c old pre ap) n f).1 = none ∧
        (pollLoop (condition c old pre ap) n f).2.rs = w) ∨
    ((pollLoop (condition c old pre ap) n f).1 = some ErrWaitTimeout ∧
      getCount (pollLoop (condition c old pre ap) n f).2.calls = getCount f.calls + n ∧
      (n = 0 ∧ (pollLoop (condition c old pre ap) n f).2 = f ∨
        ∃ a w e, (pollLoop (condition c old pre ap) n f).2.calls.getLast?
            = some (Call.Update a w (some e)) ∧
          (pollLoop (condition c old pre ap) n f).2.rs = w)) := by
  refine pollLoop_cases c old pre ap
    (fun n f res =>
      (∃ r e, res.2.calls.getLast? = some (Call.Get old.Name r (some e)) ∧
        res.1 = some e ∧ res.2.rs = r) ∨
      (∃ before r, res.2.calls
          = before ++ [Call.Get old.Name r none, Call.preconditionHold r false] ∧
        pre r = false ∧ res.1 = none ∧ res.2.rs = r) ∨
      (∃ a w, res.2.calls.getLast? = some (Call.Update a w none) ∧
        res.1 = none ∧ res.2.rs = w) ∨
      (res.1 = some ErrWaitTimeout ∧
        getCount res.2.calls = getCount f.calls + n ∧
        (n = 0 ∧ res.2 = f ∨
          ∃ a w e, res.2.calls.getLast? = some (Call.Update a w (some e)) ∧ res.2.rs = w)))
    ?_ ?_ ?_ ?_ ?_ n f
  · intro f
    exact Or.inr (Or.inr (Or.inr ⟨rfl, rfl, Or.inl ⟨rfl, rfl⟩⟩))
  · intro n f r e _
    exact Or.inl ⟨r, e, List.getLast?_concat _, rfl, rfl⟩
  · intro n f r _ hp
    exact Or.inr (Or.inl ⟨f.calls, r, rfl, hp, rfl, rfl⟩)
  · intro n f r w _ _ _
    refine Or.inr (Or.inr (Or.inl ⟨ap r, w, ?_, rfl, rfl⟩))
    simp [writeBlock]
  · intro n f r w e res _ _ _ ih
    rcases ih with h | h | h | ⟨h1, h2, h3⟩
    · exact Or.inl h
    · exact Or.inr (Or.inl h)
    · exact Or.inr (Or.inr (Or.inl h))
    · refine Or.inr (Or.inr (Or.inr ⟨h1, ?_, Or.inr ?_⟩))
      · simp at h2; omega
      · rcases h3 with ⟨_, hres⟩ | h3
        · refine ⟨ap r, w, e, ?_, ?_⟩
          · rw [hres]; simp [writeBlock]
          · rw [hres]
        · exact h3

/-- The four ways a run of `UpdateRSWithRetries` can end, with what it returns in
each: after a failed `Get` the fetched value, `rsUpdated = false` and the fetch
error (dropped when NotFound, replaced by the timed-out error when it is the
timeout sentinel); after a false precondition or a successful `Update` a nil
error and `rsUpdated = true`; after a failed `Update` in the last attempt of the
budget the timed-out error and `rsUpdated = false`. -/
theorem UpdateRSWithRetries_ending (c : ReplicaSetInterface) (rs : ReplicaSet)
    (pre : preconditionFunc) (ap : updateRSFunc) :
    (∃ r e, (UpdateRSWithRetries c rs pre ap).calls.getLast?
          = some (Call.Get rs.Name r (some e)) ∧
        (UpdateRSWithRetries c rs pre ap).rs = r ∧
        (UpdateRSWithRetries c rs pre ap).rsUpdated = false ∧
        (UpdateRSWithRetries c rs pre ap).err =
          if IsNotFound (some e) = true then none
          else if e = ErrWaitTimeout then some (timedOutError rs) else some e) ∨
    (∃ before r, (UpdateRSWithRetries c rs pre ap).calls
          = before ++ [Call.Get rs.Name r none, Call.preconditionHold r false] ∧
        pre r = false ∧
        (UpdateRSWithRetries c rs pre ap).rs = r ∧
        (UpdateRSWithRetries c rs pre ap).rsUpdated = true ∧
        (UpdateRSWithRetries c rs pre ap).err = none) ∨
    (∃ a w, (UpdateRSWithRetries c rs pre ap).calls.getLast?
          = some (Call.Update a w none) ∧
        (UpdateRSWithRetries c rs pre ap).rs = w ∧
        (UpdateRSWithRetries c rs pre ap).rsUpdated = true ∧
        (UpdateRSWithRetries c rs pre ap).err = none) ∨
    (∃ a w e, (UpdateRSWithRetries c rs pre ap).calls.getLast?
          = some (Call.Update a w (some e)) ∧
        (UpdateRSWithRetries c rs pre ap).rs = w ∧
        (UpdateRSWithRetries c rs pre ap).rsUpdated = false ∧
        (UpdateRSWithRetries c rs pre ap).err = some (timedOutError rs) ∧
        getCount (UpdateRSWithRetries c rs pre ap).calls = attempts) := by
  have hend := pollLoop_ending c rs pre ap attempts { rs := rs, err := none, calls := [] }
  rw [UpdateRSWithRetries_eq]
  simp only
  rcases hend with ⟨r, e, h1, h2, h3⟩ | ⟨before, r, h1, hp, h2, h3⟩ | ⟨a, w, h1, h2, h3⟩ |
    ⟨h1, h2, h3⟩
  · refine Or.inl ⟨r, e, h1, h3, ?_, ?_⟩
    · rw [h2]; rfl
    · rw [h2]
      by_cases hs : e = ErrWaitTimeout
      · subst hs
        simp [IsNotFound, ErrWaitTimeout, timedOutError]
      · simp [hs]
  · refine Or.inr (Or.inl ⟨before, r, h1, hp, h3, ?_, ?_⟩)
    · rw [h2]; rfl
    · rw [h2]; simp [IsNotFound]
  · refine Or.inr (Or.inr (Or.inl ⟨a, w, h1, h3, ?_, ?_⟩))
    · rw [h2]; rfl
    · rw [h2]; simp [IsNotFound]
  · rcases h3 with ⟨h0, _⟩ | ⟨a, w, e, h3, h4⟩
    · rw [attempts_eq] at h0
      exact absurd h0 (by decide)
    · refine Or.inr (Or.inr (Or.inr ⟨a, w, e, h3, h4, ?_, ?_, ?_⟩))
      · rw [h1]; rfl
      · rw [h1]; simp [IsNotFound, timedOutError]
      · simpa using h2

/-! ## The claims, continued -/

/-- C11: two runs against the same store, precondition and mutation, started from
caller-supplied resources of the same name, make the same calls with the same
arguments and results, and return the same resource, the same `rsUpdated` flag
and errors that are both nil or both non-nil. -/
theorem C11_caller_snapshot_used_for_name_only (c : ReplicaSetInterface)
    (pre : preconditionFunc) (ap : updateRSFunc) (rs rs2 : ReplicaSet)
    (hname : rs.Name = rs2.Name) :
    (UpdateRSWithRetries c rs pre ap).calls = (UpdateRSWithRetries c rs2 pre ap).calls ∧
      (UpdateRSWithRetries c rs pre ap).rs = (UpdateRSWithRetries c rs2 pre ap).rs ∧
      (UpdateRSWithRetries c rs pre ap).rsUpdated
        = (UpdateRSWithRetries c rs2 pre ap).rsUpdated ∧
      ((UpdateRSWithRetries c rs pre ap).err = none ↔
        (UpdateRSWithRetries c rs2 pre ap).err = none) := by
  have hloop : pollLoop (condition c rs pre ap) attempts { rs := rs, err := none, calls := [] }
      = pollLoop (condition c rs2 pre ap) attempts { rs := rs2, err := none, calls := [] } := by
    rw [attempts_eq]
    exact pollLoop_congr c pre ap rs rs2 hname 6000 _ _ rfl
  rw [UpdateRSWithRetries_eq, UpdateRSWithRetries_eq]
  simp only [hloop]
  refine ⟨trivial, trivial, trivial, ?_⟩
  by_cases ht : (pollLoop (condition c rs2 pre ap) attempts
      { rs := rs2, err := none, calls := [] }).1 = some ErrWaitTimeout
  · simp [ht, IsNotFound, timedOutError]
  · simp [ht]

/-- Witness of C11: the spec's scenario started from two snapshots named `rs-1` that
differ in version and replica count. -/
theorem C11_caller_snapshot_used_for_name_only_witness :
    (rs1 1 3).Name = (rs1 9 9).Name ∧ rs1 1 3 ≠ rs1 9 9 ∧
      ((UpdateRSWithRetries scenarioStore (rs1 1 3) scenarioPrecondition scenarioUpdate).calls
          = (UpdateRSWithRetries scenarioStore (rs1 9 9) scenarioPrecondition
              scenarioUpdate).calls ∧
        (UpdateRSWithRetries scenarioStore (rs1 1 3) scenarioPrecondition scenarioUpdate).rs
          = (UpdateRSWithRetries scenarioStore (rs1 9 9) scenarioPrecondition
              scenarioUpdate).rs ∧
        (UpdateRSWithRetries scenarioStore (rs1 1 3) scenarioPrecondition
            scenarioUpdate).rsUpdated
          = (UpdateRSWithRetries scenarioStore (rs1 9 9) scenarioPrecondition
              scenarioUpdate).rsUpdated ∧
        ((UpdateRSWithRetries scenarioStore (rs1 1 3) scenarioPrecondition
            scenarioUpdate).err = none ↔
          (UpdateRSWithRetries scenarioStore (rs1 9 9) scenarioPrecondition
            scenarioUpdate).err = none)) :=
  ⟨rfl, by decide,
    C11_caller_snapshot_used_for_name_only scenarioStore scenarioPrecondition scenarioUpdate
      (rs1 1 3) (rs1 9 9) rfl⟩

/-- C12 (counterexample): after one conflicting write the second `Get` fails with the
error value `wait.ErrWaitTimeout`, which is not a NotFound error. The run
returns a non-nil error although the budget is far from used up (2 `Get` calls),
and that error is not the one the last `Get` returned. -/
theorem C12_last_fetch_sentinel_error_replaced :
    (UpdateRSWithRetries sentinelLaterStore (rs1 1 3) scenarioPrecondition
        scenarioUpdate).calls.getLast? = some (Call.Get "rs-1" blankRS (some ErrWaitTimeout)) ∧
      IsNotFound (some ErrWaitTimeout) = false ∧
      getCount (UpdateRSWithRetries sentinelLaterStore (rs1 1 3) scenarioPrecondition
        scenarioUpdate).calls = 2 ∧
      2 < attempts ∧
      (UpdateRSWithRetries sentinelLaterStore (rs1 1 3) scenarioPrecondition
        scenarioUpdate).err ≠ none ∧
      (UpdateRSWithRetries sentinelLaterStore (rs1 1 3) scenarioPrecondition
        scenarioUpdate).err ≠ some ErrWaitTimeout := by
  refine ⟨by decide, rfl, by decide, by rw [attempts_eq]; decide, by decide, by decide⟩

/-- C12 (amended): the returned error is non-nil exactly when the last call of the run
is a `Get` that failed with a non-NotFound error, or a failed `Update`. In the
first case the returned error is the error of that `Get`, except that the value
`wait.ErrWaitTimeout` is replaced by the timed-out error. In the second case the
budget is used up and the timed-out error is returned whatever the error of the
`Update` was, so an `Update` error is never handed to the caller. -/
theorem C12_nonnil_error_sources (c : ReplicaSetInterface) (rs : ReplicaSet)
    (pre : preconditionFunc) (ap : updateRSFunc) :
    ((UpdateRSWithRetries c rs pre ap).err ≠ none ↔
      (∃ r e, (UpdateRSWithRetries c rs pre ap).calls.getLast?
            = some (Call.Get rs.Name r (some e)) ∧ IsNotFound (some e) = false) ∨
      (∃ a w e, (UpdateRSWithRetries c rs pre ap).calls.getLast?
            = some (Call.Update a w (some e)))) ∧
    (∀ r e, (UpdateRSWithRetries c rs pre ap).calls.getLast?
          = some (Call.Get rs.Name r (some e)) → IsNotFound (some e) = false →
      (UpdateRSWithRetries c rs pre ap).err
        = some (if e = ErrWaitTimeout then timedOutError rs else e)) ∧
    (∀ a w e, (UpdateRSWithRetries c rs pre ap).calls.getLast?
          = some (Call.Update a w (some e)) →
      getCount (UpdateRSWithRetries c rs pre ap).calls = attempts ∧
      (UpdateRSWithRetries c rs pre ap).err = some (timedOutError rs)) := by
  have hend := UpdateRSWithRetries_ending c rs pre ap
  generalize UpdateRSWithRetries c rs pre ap = out at hend ⊢
  rcases hend with ⟨r, e, hlast, _, _, herr⟩ | ⟨before, r, hcalls, _, _, _, herr⟩ |
    ⟨a, w, hlast, _, _, herr⟩ | ⟨a, w, e, hlast, _, _, herr, hcount⟩
  · -- the run ended on a failed Get
    have hval : IsNotFound (some e) = false →
        out.err = some (if e = ErrWaitTimeout then timedOutError rs else e) := by
      intro hnf
      rw [herr]
      by_cases hs : e = ErrWaitTimeout
      · simp [hs, IsNotFound, ErrWaitTimeout]
      · simp [hs, hnf]
    refine ⟨⟨?_, ?_⟩, ?_, ?_⟩
    · intro hne
      refine Or.inl ⟨r, e, hlast, ?_⟩
      cases hnf : IsNotFound (some e)
      · rfl
      · rw [herr, hnf] at hne
        simp at hne
    · rintro (⟨r2, e2, h2, hnf⟩ | ⟨a, w, e2, h2⟩)
      · rw [hlast] at h2
        simp only [Option.some.injEq, Call.Get.injEq, true_and] at h2
        obtain ⟨_, he⟩ := h2
        subst he
        rw [hval hnf]
        simp
      · rw [hlast] at h2
        simp at h2
    · intro r2 e2 h2 hnf
      rw [hlast] at h2
      simp only [Option.some.injEq, Call.Get.injEq, true_and] at h2
      obtain ⟨_, he⟩ := h2
      subst he
      exact hval hnf
    · intro a w e2 h2
      rw [hlast] at h2
      simp at h2
  · -- the run ended on a false precondition
    have hlast : out.calls.getLast? = some (Call.preconditionHold r false) := by
      rw [hcalls]; simp
    refine ⟨⟨fun hne => absurd herr hne, ?_⟩, ?_, ?_⟩
    · rintro (⟨r2, e2, h2, _⟩ | ⟨a, w, e2, h2⟩) <;>
        · rw [hlast] at h2
          simp at h2
    · intro r2 e2 h2 _
      rw [hlast] at h2
      simp at h2
    · intro a w e2 h2
      rw [hlast] at h2
      simp at h2
  · -- the run ended on a successful Update
    refine ⟨⟨fun hne => absurd herr hne, ?_⟩, ?_, ?_⟩
    · rintro (⟨r2, e2, h2, _⟩ | ⟨a2, w2, e2, h2⟩) <;>
        · rw [hlast] at h2
          simp at h2
    · intro r2 e2 h2 _
      rw [hlast] at h2
      simp at h2
    · intro a2 w2 e2 h2
      rw [hlast] at h2
      simp at h2
  · -- the budget is used up
    refine ⟨⟨fun _ => Or.inr ⟨a, w, e, hlast⟩, fun _ => by rw [herr]; simp⟩, ?_, ?_⟩
    · intro r2 e2 h2 _
      rw [hlast] at h2
      simp at h2
    · intro a2 w2 e2 _
      exact ⟨hcount, herr⟩

/-- C13: `rsUpdated = true` exactly when the poll returned no error, which is exactly
when the run ended on a precondition that was false on the snapshot just fetched
or on a successful `Update`; `rsUpdated = true` implies a nil error; and the
outcome nil error with `rsUpdated = false` is returned exactly when the last
call of the run is a `Get` that failed with NotFound. -/
theorem C13_updated_flag_characterised (c : ReplicaSetInterface) (rs : ReplicaSet)
    (pre : preconditionFunc) (ap : updateRSFunc) :
    ((UpdateRSWithRetries c rs pre ap).rsUpdated = true ↔
      (Poll (10 * Millisecond) (1 * Minute) (condition c rs pre ap)
        { rs := rs, err := none, calls := [] }).1 = none) ∧
    ((UpdateRSWithRetries c rs pre ap).rsUpdated = true ↔
      (∃ before r, (UpdateRSWithRetries c rs pre ap).calls
            = before ++ [Call.Get rs.Name r none, Call.preconditionHold r false] ∧
          pre r = false) ∨
      (∃ a w, (UpdateRSWithRetries c rs pre ap).calls.getLast?
            = some (Call.Update a w none))) ∧
    ((UpdateRSWithRetries c rs pre ap).rsUpdated = true →
      (UpdateRSWithRetries c rs pre ap).err = none) ∧
    (((UpdateRSWithRetries c rs pre ap).err = none ∧
        (UpdateRSWithRetries c rs pre ap).rsUpdated = false) ↔
      ∃ r e, (UpdateRSWithRetries c rs pre ap).calls.getLast?
            = some (Call.Get rs.Name r (some e)) ∧ IsNotFound (some e) = true) := by
  refine ⟨?_, ?_⟩
  · simp [UpdateRSWithRetries]
  have hend := UpdateRSWithRetries_ending c rs pre ap
  generalize UpdateRSWithRetries c rs pre ap = out at hend ⊢
  rcases hend with ⟨r, e, hlast, _, hupd, herr⟩ | ⟨before, r, hcalls, hp, _, hupd, herr⟩ |
    ⟨a, w, hlast, _, hupd, herr⟩ | ⟨a, w, e, hlast, _, hupd, herr, _⟩
  · -- the run ended on a failed Get
    refine ⟨⟨fun h => by rw [hupd] at h; simp at h, ?_⟩, fun h => by rw [hupd] at h; simp at h,
      ⟨?_, ?_⟩⟩
    · rintro (⟨b2, r2, h2, _⟩ | ⟨a2, w2, h2⟩)
      · rw [h2] at hlast
        simp at hlast
      · rw [hlast] at h2
        simp at h2
    · rintro ⟨hnil, _⟩
      refine ⟨r, e, hlast, ?_⟩
      cases hnf : IsNotFound (some e)
      · rw [herr, hnf] at hnil
        by_cases hs : e = ErrWaitTimeout <;> simp [hs] at hnil
      · rfl
    · rintro ⟨r2, e2, h2, hnf⟩
      rw [hlast] at h2
      simp only [Option.some.injEq, Call.Get.injEq, true_and] at h2
      obtain ⟨_, he⟩ := h2
      subst he
      exact ⟨by rw [herr, hnf]; simp, hupd⟩
  · -- the run ended on a false precondition
    have hlast : out.calls.getLast? = some (Call.preconditionHold r false) := by
      rw [hcalls]; simp
    refine ⟨⟨fun _ => Or.inl ⟨before, r, hcalls, hp⟩, fun _ => hupd⟩, fun _ => herr, ⟨?_, ?_⟩⟩
    · rintro ⟨_, h⟩
      rw [hupd] at h
      simp at h
    · rintro ⟨r2, e2, h2, _⟩
      rw [hlast] at h2
      simp at h2
  · -- the run ended on a successful Update
    refine ⟨⟨fun _ => Or.inr ⟨a, w, hlast⟩, fun _ => hupd⟩, fun _ => herr, ⟨?_, ?_⟩⟩
    · rintro ⟨_, h⟩
      rw [hupd] at h
      simp at h
    · rintro ⟨r2, e2, h2, _⟩
      rw [hlast] at h2
      simp at h2
  · -- the budget is used up
    refine ⟨⟨fun h => by rw [hupd] at h; simp at h, ?_⟩, fun h => by rw [hupd] at h; simp at h,
      ⟨?_, ?_⟩⟩
    · rintro (⟨b2, r2, h2, _⟩ | ⟨a2, w2, h2⟩)
      · rw [h2] at hlast
        simp at hlast
      · rw [hlast] at h2
        simp at h2
    · rintro ⟨hnil, _⟩
      rw [herr] at hnil
      simp at hnil
    · rintro ⟨r2, e2, h2, _⟩
      rw [hlast] at h2
      simp at h2

end replicaset
